import Mathlib

/-!
Shallow embedding of the Legio-Parser matching-result algebra.

The crate contains two editions of the library:
* the "trait" edition (`src/result.rs`, `src/traits/…`), whose `Match` is a pair
  of optional "matched" / "rest" parts;
* the older edition (`src/match_result.rs`, `src/match_with.rs`,
  `src/match_with_in_range.rs`, …), whose `Match` wraps an optional
  `SuccessfulMatch` record carrying an index, the matched part and the rest.

Rust slices are modelled as `List E`; `&str` values are modelled as `List Char`
together with an explicit UTF-8 byte-length model where byte indexing matters.
Rust `FnMut`/`FnOnce` closures are modelled as state-threading functions
`σ → … → σ × β`; an operation that can run such a closure takes and returns the
closure state, so "the closure was never invoked" is expressed as "the state
comes back unchanged (for every closure)".  Rust panics are modelled with
`Except`.
-/

namespace Legio

/-- Unit error value signalling "no match" (`MatchFailed` in `src/result.rs`). -/
inductive MatchFailed : Type
  | matchFailed
deriving DecidableEq, Repr

/-- Marker for a Rust panic (e.g. string slicing off a codepoint boundary). -/
inductive PanicError : Type
  | panicked
deriving DecidableEq, Repr

/-- Pattern-matching result of the trait edition (`Match<T, U>` in
`src/result.rs`): an optional "matched" part and an optional "rest" part;
absence of "rest" encodes failure. -/
structure Match (T U : Type) : Type where
  matched : Option T
  rest : Option U
deriving DecidableEq, Repr

/-- Embeds `Match::new`: constructs a success (the "rest" part is present). -/
def Match.new {T U : Type} (matched : Option T) (rest : U) : Match T U :=
  ⟨matched, some rest⟩

/-- Embeds `Match::failed` (the `MatchFail` impl): both parts absent. -/
def Match.failed {T U : Type} : Match T U :=
  ⟨none, none⟩

/-- Embeds `Match::is_failed`: true iff the "rest" part is absent. -/
def Match.isFailed {T U : Type} (m : Match T U) : Bool :=
  m.rest.isNone

/-- Embeds `Match::take`: returns `(matched, rest)` or the `MatchFailed` error. -/
def Match.take {T U : Type} (m : Match T U) : Except MatchFailed (Option T × U) :=
  match m.rest with
  | some rest => .ok (m.matched, rest)
  | none => .error .matchFailed

/-- Embeds `Match::clear`: drops the "matched" part, keeps everything else. -/
def Match.clear {T U : Type} (m : Match T U) : Match T U :=
  { m with matched := none }

/-- Embeds `TransformMatch<T, U>` from `src/result.rs`. -/
inductive TransformMatch (T U : Type) : Type
  | failed
  | onlyRest (rest : U)
  | full (matched : T) (rest : U)

/-- Embeds the `From<TransformMatch<T, U>> for Match<T, U>` conversion. -/
def TransformMatch.toMatch {T U : Type} : TransformMatch T U → Match T U
  | .failed => Match.failed
  | .onlyRest rest => Match.new none rest
  | .full matched rest => Match.new (some matched) rest

/-- Embeds `Match::assert` with a state-threaded predicate closure. -/
def Match.assertS {T U σ : Type} (m : Match T U)
    (f : σ → Option T → U → σ × Bool) (s : σ) : σ × Match T U :=
  match m.rest with
  | some rest =>
    let (s1, b) := f s m.matched rest
    (s1, if b then m else Match.failed)
  | none => (s, m)

/-- Embeds `Match::execute` with a state-threaded side-effect closure. -/
def Match.executeS {T U σ : Type} (m : Match T U)
    (f : σ → Option T → U → σ) (s : σ) : σ × Match T U :=
  match m.rest with
  | some rest => (f s m.matched rest, m)
  | none => (s, m)

/-- Embeds `Match::transform` with a state-threaded closure. -/
def Match.transformS {T U M R σ : Type} (m : Match T U)
    (f : σ → Option T → U → σ × TransformMatch M R) (s : σ) : σ × Match M R :=
  match m.rest with
  | some rest =>
    let (s1, t) := f s m.matched rest
    (s1, t.toMatch)
  | none => (s, Match.failed)

/-- Embeds `Match::transform_matched` with a state-threaded closure. -/
def Match.transformMatchedS {T U R σ : Type} (m : Match T U)
    (f : σ → T → σ × R) (s : σ) : σ × Match R U :=
  match m.matched, m.rest with
  | some matched, some rest =>
    let (s1, b) := f s matched
    (s1, Match.new (some b) rest)
  | none, some rest => (s, Match.new none rest)
  | _, none => (s, Match.failed)

/-- Embeds `Match::transform_rest` with a state-threaded closure. -/
def Match.transformRestS {T U R σ : Type} (m : Match T U)
    (f : σ → U → σ × R) (s : σ) : σ × Match T R :=
  match m.matched, m.rest with
  | matched, some rest =>
    let (s1, b) := f s rest
    (s1, Match.new matched b)
  | _, none => (s, Match.failed)

/-- Embeds `Match::discarding`: keeps the original "matched" part, adopts the
"rest" part of the closure result, normalising failures. -/
def Match.discardingS {T U σ : Type} (m : Match T U)
    (f : σ → Option T → U → σ × Match T U) (s : σ) : σ × Match T U :=
  match m.rest with
  | some rest =>
    let (s1, res) := f s m.matched rest
    let m1 : Match T U := { m with rest := res.rest }
    (s1, if m1.isFailed then Match.failed else m1)
  | none => (s, Match.failed)

/-- Embeds `Match::discarding_ref`: same as `discarding` but without the
failure normalisation step present in `discarding`. -/
def Match.discardingRefS {T U σ : Type} (m : Match T U)
    (f : σ → Option T → U → σ × Match T U) (s : σ) : σ × Match T U :=
  match m.rest with
  | some rest =>
    let (s1, res) := f s m.matched rest
    (s1, { m with rest := res.rest })
  | none => (s, Match.failed)

/-- Embeds `Match::optional`: a failing sub-attempt is reverted to the original
result; a successful one replaces it. -/
def Match.optionalS {T U σ : Type} (m : Match T U)
    (f : σ → Option T → U → σ × Match T U) (s : σ) : σ × Match T U :=
  match m.rest with
  | some rest =>
    let (s1, res) := f s m.matched rest
    (s1, if res.isFailed then m else res)
  | none => (s, Match.failed)

/-- Embeds `Match::optional_ref` (identical control flow to `optional`; the
by-reference passing is invisible in the embedding). -/
def Match.optionalRefS {T U σ : Type} (m : Match T U)
    (f : σ → Option T → U → σ × Match T U) (s : σ) : σ × Match T U :=
  match m.rest with
  | some rest =>
    let (s1, res) := f s m.matched rest
    (s1, if res.isFailed then m else res)
  | none => (s, Match.failed)

/-- Embeds `MappedMatch<T, U, V>` from `src/result.rs`: a match result carrying
an opaque caller value alongside the "matched" part. -/
structure MappedMatch (T U V : Type) : Type where
  matched : Option (T × V)
  rest : Option U
deriving DecidableEq, Repr

/-- Embeds `MappedMatch::new`. -/
def MappedMatch.new {T U V : Type} (matched : Option (T × V)) (rest : U) :
    MappedMatch T U V :=
  ⟨matched, some rest⟩

/-- Embeds `MappedMatch::failed`. -/
def MappedMatch.failed {T U V : Type} : MappedMatch T U V :=
  ⟨none, none⟩

/-- Embeds `MappedMatch::is_failed`. -/
def MappedMatch.isFailed {T U V : Type} (m : MappedMatch T U V) : Bool :=
  m.rest.isNone

/-- Embeds `MappedMatch::clear`. -/
def MappedMatch.clear {T U V : Type} (m : MappedMatch T U V) : MappedMatch T U V :=
  { m with matched := none }

/-- Embeds `Match::map`: attaches a caller value, producing a `MappedMatch`. -/
def Match.map {T U V : Type} (m : Match T U) (value : V) : MappedMatch T U V :=
  match m.rest with
  | some rest => MappedMatch.new (m.matched.map (fun a => (a, value))) rest
  | none => MappedMatch.failed

/-- Embeds `TransformMappedMatch<T, U, V>` from `src/result.rs`. -/
inductive TransformMappedMatch (T U V : Type) : Type
  | failed
  | onlyRest (rest : U)
  | full (matched : T) (rest : U) (mapped : V)

/-- Embeds the `From<TransformMappedMatch<…>> for MappedMatch<…>` conversion. -/
def TransformMappedMatch.toMappedMatch {T U V : Type} :
    TransformMappedMatch T U V → MappedMatch T U V
  | .failed => MappedMatch.failed
  | .onlyRest rest => MappedMatch.new none rest
  | .full matched rest mapped => MappedMatch.new (some (matched, mapped)) rest

/-- Embeds `MappedMatch::assert` with a state-threaded predicate closure. -/
def MappedMatch.assertS {T U V σ : Type} (m : MappedMatch T U V)
    (f : σ → Option (T × V) → U → σ × Bool) (s : σ) : σ × MappedMatch T U V :=
  match m.rest with
  | some rest =>
    let (s1, b) := f s m.matched rest
    (s1, if b then m else MappedMatch.failed)
  | none => (s, m)

/-- Embeds `MappedMatch::execute` with a state-threaded side-effect closure. -/
def MappedMatch.executeS {T U V σ : Type} (m : MappedMatch T U V)
    (f : σ → Option (T × V) → U → σ) (s : σ) : σ × MappedMatch T U V :=
  match m.rest with
  | some rest => (f s m.matched rest, m)
  | none => (s, m)

/-- Embeds `MappedMatch::transform` with a state-threaded closure. -/
def MappedMatch.transformS {T U V M R Q σ : Type} (m : MappedMatch T U V)
    (f : σ → Option (T × V) → U → σ × TransformMappedMatch M R Q) (s : σ) :
    σ × MappedMatch M R Q :=
  match m.rest with
  | some rest =>
    let (s1, t) := f s m.matched rest
    (s1, t.toMappedMatch)
  | none => (s, MappedMatch.failed)

/-- Embeds `MappedMatch::transform_matched` with a state-threaded closure. -/
def MappedMatch.transformMatchedS {T U V R σ : Type} (m : MappedMatch T U V)
    (f : σ → T → σ × R) (s : σ) : σ × MappedMatch R U V :=
  match m.matched, m.rest with
  | some (matched, mapped), some rest =>
    let (s1, b) := f s matched
    (s1, MappedMatch.new (some (b, mapped)) rest)
  | none, some rest => (s, MappedMatch.new none rest)
  | _, none => (s, MappedMatch.failed)

/-- Embeds `MappedMatch::transform_rest` with a state-threaded closure. -/
def MappedMatch.transformRestS {T U V R σ : Type} (m : MappedMatch T U V)
    (f : σ → U → σ × R) (s : σ) : σ × MappedMatch T R V :=
  match m.matched, m.rest with
  | matched, some rest =>
    let (s1, b) := f s rest
    (s1, MappedMatch.new matched b)
  | _, none => (s, MappedMatch.failed)

/-- Embeds `MappedMatch::discarding` with a state-threaded closure. -/
def MappedMatch.discardingS {T U V σ : Type} (m : MappedMatch T U V)
    (f : σ → Option (T × V) → U → σ × MappedMatch T U V) (s : σ) :
    σ × MappedMatch T U V :=
  match m.rest with
  | some rest =>
    let (s1, res) := f s m.matched rest
    let m1 : MappedMatch T U V := { m with rest := res.rest }
    (s1, if m1.isFailed then MappedMatch.failed else m1)
  | none => (s, MappedMatch.failed)

/-- Embeds `MappedMatch::discarding_ref` with a state-threaded closure. -/
def MappedMatch.discardingRefS {T U V σ : Type} (m : MappedMatch T U V)
    (f : σ → Option (T × V) → U → σ × MappedMatch T U V) (s : σ) :
    σ × MappedMatch T U V :=
  match m.rest with
  | some rest =>
    let (s1, res) := f s m.matched rest
    (s1, { m with rest := res.rest })
  | none => (s, MappedMatch.failed)

/-- Embeds `MappedMatch::optional` with a state-threaded closure. -/
def MappedMatch.optionalS {T U V σ : Type} (m : MappedMatch T U V)
    (f : σ → Option (T × V) → U → σ × MappedMatch T U V) (s : σ) :
    σ × MappedMatch T U V :=
  match m.rest with
  | some rest =>
    let (s1, res) := f s m.matched rest
    (s1, if res.isFailed then m else res)
  | none => (s, MappedMatch.failed)

/-- Embeds `MappedMatch::optional_ref` with a state-threaded closure. -/
def MappedMatch.optionalRefS {T U V σ : Type} (m : MappedMatch T U V)
    (f : σ → Option (T × V) → U → σ × MappedMatch T U V) (s : σ) :
    σ × MappedMatch T U V :=
  match m.rest with
  | some rest =>
    let (s1, res) := f s m.matched rest
    (s1, if res.isFailed then m else res)
  | none => (s, MappedMatch.failed)

/-- Scan loop of `match_with` for `&[E]` (`src/traits/match_with.rs`): walks the
sequence threading the closure state, stopping at the first element the
predicate rejects; returns the final state, the accepted prefix and the
remainder starting at the rejected element. -/
def matchWithGo {E σ : Type} (f : σ → E → σ × Bool) : σ → List E → σ × List E × List E
  | s, [] => (s, [], [])
  | s, e :: t =>
    let (s1, b) := f s e
    if b then
      let (s2, m, r) := matchWithGo f s1 t
      (s2, e :: m, r)
    else (s1, [], e :: t)

/-- Embeds `match_with` for `&[E]`: always a success whose "matched" part is
the scanned prefix and whose "rest" part is the remainder. -/
def matchWithSt {E σ : Type} (f : σ → E → σ × Bool) (s : σ) (l : List E) :
    σ × Match (List E) (List E) :=
  let (s1, m, r) := matchWithGo f s l
  (s1, Match.new (some m) r)

/-- Pure-predicate instance of `match_with` (a stateless closure). -/
def matchWithP {E : Type} (l : List E) (p : E → Bool) : Match (List E) (List E) :=
  (matchWithSt (fun (u : Unit) e => (u, p e)) () l).2

/-- Embeds `match_static` for `&[E]` (`src/traits/match_static.rs`): an empty
pattern matches trivially; otherwise the first `min(len, len)` elements are
sliced and compared against the whole pattern by slice equality. -/
def matchStatic {E : Type} [DecidableEq E] (l pattern : List E) :
    Match (List E) (List E) :=
  if pattern.isEmpty then Match.new (some (l.take 0)) l
  else
    let len := min l.length pattern.length
    if l.take len = pattern then Match.new (some (l.take len)) (l.drop len)
    else Match.failed

/-- UTF-8 byte length of a character list, modelling Rust `str::len`. -/
def utf8Len (l : List Char) : Nat :=
  l.foldr (fun c n => c.utf8Size + n) 0

/-- Byte-indexed splitting of a character list, modelling Rust string slicing
`(&s[..n], &s[n..])`: `none` models the panic raised when `n` is not a
character boundary (or exceeds the byte length). -/
def splitAtBytes : Nat → List Char → Option (List Char × List Char)
  | 0, l => some ([], l)
  | _ + 1, [] => none
  | n + 1, c :: t =>
    if n + 1 < c.utf8Size then none
    else
      match splitAtBytes (n + 1 - c.utf8Size) t with
      | some (a, b) => some (c :: a, b)
      | none => none

/-- Embeds `match_static` for `&str` (`src/traits/match_static.rs`, lines
32-47): computes `len = min(self.len(), pattern.len())` in bytes and slices
`self` at that byte index before comparing with the whole pattern; the
`Except` layer records the panic Rust raises when `len` is not a character
boundary of `self`. -/
def matchStaticStr (l pattern : List Char) :
    Except PanicError (Match (List Char) (List Char)) :=
  let len := min (utf8Len l) (utf8Len pattern)
  match splitAtBytes len l with
  | none => .error .panicked
  | some (m, r) =>
    .ok (if m = pattern then Match.new (some m) r else Match.failed)

/-- Embeds `match_min_with` for `&[E]` (`src/traits/match_with_in_range.rs`):
fails when the sequence is shorter than the minimum, otherwise delegates to
`match_with` and enforces the minimum on the matched length. -/
def matchMinWith {E σ : Type} (l : List E) (minimum : Nat)
    (f : σ → E → σ × Bool) (s : σ) : σ × Match (List E) (List E) :=
  if l.length < minimum then (s, Match.failed)
  else
    let (s1, res) := matchWithSt f s l
    (s1,
      match res.take with
      | .ok (some matched, rest) =>
        if minimum ≤ matched.length then Match.new (some matched) rest
        else Match.failed
      | _ => Match.failed)

/-- Embeds `match_max_with` for `&[E]` (`src/traits/match_with_in_range.rs`,
lines 97-116): when the maximum fits in the sequence, wraps the predicate in a
closure that stops accepting once `maximum` elements were consumed; otherwise
delegates to plain `match_with`. -/
def matchMaxWith {E σ : Type} (l : List E) (maximum : Nat)
    (f : σ → E → σ × Bool) (s : σ) : σ × Match (List E) (List E) :=
  if maximum ≤ l.length then
    let (st, res) := matchWithSt
      (fun (p : Nat × σ) e =>
        if p.1 = 0 then (p, false)
        else
          let (s2, b) := f p.2 e
          ((p.1 - 1, s2), b))
      (maximum, s) l
    (st.2, res)
  else matchWithSt f s l

/-- Embeds `match_min_max_with` for `&[E]` (`src/traits/match_with_in_range.rs`,
lines 118-142) exactly as written: note that in the `len(seq) > maximum` branch
the source passes `minimum` — not `maximum` — to `match_max_with`. -/
def matchMinMaxWith {E σ : Type} (l : List E) (minimum maximum : Nat)
    (f : σ → E → σ × Bool) (s : σ) : σ × Match (List E) (List E) :=
  if maximum < minimum then (s, Match.failed)
  else if l.length < minimum then (s, Match.failed)
  else if l.length ≤ maximum then matchMinWith l minimum f s
  else
    let (s1, res) := matchMaxWith l minimum f s
    (s1,
      match res.take with
      | .ok (some matched, rest) =>
        if minimum ≤ matched.length then Match.new (some matched) rest
        else Match.failed
      | _ => Match.failed)

/-- Embeds `match_exact_with` for `&[E]` (`src/traits/match_with_in_range.rs`). -/
def matchExactWith {E σ : Type} (l : List E) (count : Nat)
    (f : σ → E → σ × Bool) (s : σ) : σ × Match (List E) (List E) :=
  if l.length < count then (s, Match.failed)
  else matchMinMaxWith l count count f s

/-- Pure-predicate instance of `match_min_with`. -/
def matchMinWithP {E : Type} (l : List E) (minimum : Nat) (p : E → Bool) :
    Match (List E) (List E) :=
  (matchMinWith l minimum (fun (u : Unit) e => (u, p e)) ()).2

/-- Pure-predicate instance of `match_max_with`. -/
def matchMaxWithP {E : Type} (l : List E) (maximum : Nat) (p : E → Bool) :
    Match (List E) (List E) :=
  (matchMaxWith l maximum (fun (u : Unit) e => (u, p e)) ()).2

/-- Pure-predicate instance of `match_min_max_with`. -/
def matchMinMaxWithP {E : Type} (l : List E) (minimum maximum : Nat)
    (p : E → Bool) : Match (List E) (List E) :=
  (matchMinMaxWith l minimum maximum (fun (u : Unit) e => (u, p e)) ()).2

/-- Pure-predicate instance of `match_exact_with`. -/
def matchExactWithP {E : Type} (l : List E) (count : Nat) (p : E → Bool) :
    Match (List E) (List E) :=
  (matchExactWith l count (fun (u : Unit) e => (u, p e)) ()).2

/-- Embeds the `MatchStatic` impl for `Match<U, V>` (`src/result.rs`): chains on
the "rest" part, returning failure when the match already failed. -/
def Match.matchStaticChained {T E : Type} [DecidableEq E]
    (m : Match T (List E)) (pattern : List E) : Match (List E) (List E) :=
  match m.rest with
  | some rest => matchStatic rest pattern
  | none => Match.failed

/-- Embeds the `MatchWith` impl for `Match<U, V>` (`src/result.rs`). -/
def Match.matchWithChainedS {T E σ : Type} (m : Match T (List E))
    (f : σ → E → σ × Bool) (s : σ) : σ × Match (List E) (List E) :=
  match m.rest with
  | some rest => matchWithSt f s rest
  | none => (s, Match.failed)

/-- Embeds the `match_min_with` chaining impl for `Match<U, V>`. -/
def Match.matchMinWithChainedS {T E σ : Type} (m : Match T (List E))
    (minimum : Nat) (f : σ → E → σ × Bool) (s : σ) : σ × Match (List E) (List E) :=
  match m.rest with
  | some rest => matchMinWith rest minimum f s
  | none => (s, Match.failed)

/-- Embeds the `match_max_with` chaining impl for `Match<U, V>`. -/
def Match.matchMaxWithChainedS {T E σ : Type} (m : Match T (List E))
    (maximum : Nat) (f : σ → E → σ × Bool) (s : σ) : σ × Match (List E) (List E) :=
  match m.rest with
  | some rest => matchMaxWith rest maximum f s
  | none => (s, Match.failed)

/-- Embeds the `match_min_max_with` chaining impl for `Match<U, V>`. -/
def Match.matchMinMaxWithChainedS {T E σ : Type} (m : Match T (List E))
    (minimum maximum : Nat) (f : σ → E → σ × Bool) (s : σ) :
    σ × Match (List E) (List E) :=
  match m.rest with
  | some rest => matchMinMaxWith rest minimum maximum f s
  | none => (s, Match.failed)

/-- Embeds the `match_exact_with` chaining impl for `Match<U, V>`. -/
def Match.matchExactWithChainedS {T E σ : Type} (m : Match T (List E))
    (count : Nat) (f : σ → E → σ × Bool) (s : σ) : σ × Match (List E) (List E) :=
  match m.rest with
  | some rest => matchExactWith rest count f s
  | none => (s, Match.failed)

/-- Embeds `CollectingMatch<T, U>` from `src/result.rs`: an accumulated list of
matched pieces and an optional "rest"; absence of "rest" encodes failure. -/
structure CollectingMatch (T U : Type) : Type where
  «matches» : List T
  rest : Option U
deriving DecidableEq, Repr

/-- Embeds `CollectingMatch::failed`: empty accumulation and no "rest". -/
def CollectingMatch.failed {T U : Type} : CollectingMatch T U :=
  ⟨[], none⟩

/-- Embeds `CollectingMatch::is_failed`. -/
def CollectingMatch.isFailed {T U : Type} (c : CollectingMatch T U) : Bool :=
  c.rest.isNone

/-- Embeds `From<Match<T, U>> for CollectingMatch<T, U>` (the `into_collecting`
conversion). -/
def CollectingMatch.fromMatch {T U : Type} (m : Match T U) : CollectingMatch T U :=
  ⟨match m.matched with
    | some matched => [matched]
    | none => [], m.rest⟩

/-- Embeds `CollectingMatch::finalize`: the accumulated list plus the final
"rest" on success, the `MatchFailed` error otherwise. -/
def CollectingMatch.finalize {T U : Type} (c : CollectingMatch T U) :
    Except MatchFailed (List T × U) :=
  match c.rest with
  | some rest => .ok (c.«matches», rest)
  | none => .error .matchFailed

/-- Embeds `CollectingMatch::single` (`src/result.rs`, lines 822-844): runs the
matching closure on the last accumulated piece and the current "rest"; a failed
step turns the whole value into the failed one, a successful step appends the
step's matched piece and adopts its "rest". -/
def CollectingMatch.singleS {T U σ : Type} (c : CollectingMatch T U)
    (f : σ → Option T → U → σ × Match T U) (s : σ) : σ × CollectingMatch T U :=
  match c.rest with
  | some rest =>
    let (s1, res) := f s c.«matches».getLast? rest
    (s1,
      if res.isFailed then CollectingMatch.failed
      else
        { «matches» :=
            c.«matches» ++
              (match res.matched with
               | some matched => [matched]
               | none => []),
          rest := res.rest })
  | none => (s, CollectingMatch.failed)

/-- Embeds `CollectingMatch::repeat` (`src/result.rs`, lines 847-868) exactly as
written: each iteration replaces the "rest" part by the closure result's "rest"
and never touches the accumulated list; a failed step is detected by the
following iteration, which returns the failed value. -/
def CollectingMatch.repeatS {T U σ : Type} (c : CollectingMatch T U) :
    Nat → (σ → Option T → U → σ × Match T U) → σ → σ × CollectingMatch T U
  | count, f, s =>
    match c.rest with
    | none => (s, CollectingMatch.failed)
    | some rest =>
      match count with
      | 0 => (s, c)
      | n + 1 =>
        let (s1, res) := f s c.«matches».getLast? rest
        CollectingMatch.repeatS { c with rest := res.rest } n f s1

/-- Embeds `CollectingMatch::assert` with a state-threaded closure. -/
def CollectingMatch.assertS {T U σ : Type} (c : CollectingMatch T U)
    (f : σ → Option T → U → σ × Bool) (s : σ) : σ × CollectingMatch T U :=
  match c.rest with
  | some rest =>
    let (s1, b) := f s c.«matches».getLast? rest
    (s1, if b then c else CollectingMatch.failed)
  | none => (s, CollectingMatch.failed)

/-- Embeds `CollectingMatch::execute` with a state-threaded closure. -/
def CollectingMatch.executeS {T U σ : Type} (c : CollectingMatch T U)
    (f : σ → Option T → U → σ) (s : σ) : σ × CollectingMatch T U :=
  match c.rest with
  | some rest => (f s c.«matches».getLast? rest, c)
  | none => (s, CollectingMatch.failed)

/-- Embeds `CollectingMatch::discarding` with a state-threaded closure. -/
def CollectingMatch.discardingS {T U σ : Type} (c : CollectingMatch T U)
    (f : σ → Option T → U → σ × Match T U) (s : σ) : σ × CollectingMatch T U :=
  match c.rest with
  | some rest =>
    let (s1, res) := f s c.«matches».getLast? rest
    (s1, { c with rest := res.rest })
  | none => (s, CollectingMatch.failed)

/-- Embeds `CollectingMatch::optional` with a state-threaded closure. -/
def CollectingMatch.optionalS {T U σ : Type} (c : CollectingMatch T U)
    (f : σ → Option T → U → σ × CollectingMatch T U) (s : σ) :
    σ × CollectingMatch T U :=
  match c.rest with
  | some rest =>
    let (s1, res) := f s c.«matches».getLast? rest
    (s1, if res.isFailed then c else res)
  | none => (s, CollectingMatch.failed)

/-- Embeds `CollectingMatch::optional_ref` with a state-threaded closure. -/
def CollectingMatch.optionalRefS {T U σ : Type} (c : CollectingMatch T U)
    (f : σ → Option T → U → σ × CollectingMatch T U) (s : σ) :
    σ × CollectingMatch T U :=
  match c.rest with
  | some rest =>
    let (s1, res) := f s c.«matches».getLast? rest
    (s1, if res.isFailed then c else res)
  | none => (s, CollectingMatch.failed)

/-- Embeds `AlternativesMatch<T, U, V>` from `src/result.rs`: the shared
starting point and the best branch result so far. -/
structure AlternativesMatch (T U V : Type) : Type where
  previous : T
  matched : Match U V

/-- Embeds `AlternativesMatch::new`: no branch has matched yet (the `matched`
field starts as the failed value). -/
def AlternativesMatch.new {T U V : Type} (previous : T) : AlternativesMatch T U V :=
  ⟨previous, ⟨none, none⟩⟩

/-- Embeds `AlternativesMatch::is_matched`. -/
def AlternativesMatch.isMatched {T U V : Type} (a : AlternativesMatch T U V) : Bool :=
  !a.matched.isFailed

/-- Embeds `AlternativesMatch::add_path` with a state-threaded branch closure:
the branch runs on a copy of the starting point only while no earlier branch
has succeeded. -/
def AlternativesMatch.addPathS {T U V σ : Type} (a : AlternativesMatch T U V)
    (f : σ → T → σ × Match U V) (s : σ) : σ × AlternativesMatch T U V :=
  if a.matched.isFailed then
    let (s1, r) := f s a.previous
    (s1, { a with matched := r })
  else (s, a)

/-- Embeds `AlternativesMatch::finalize`. -/
def AlternativesMatch.finalize {T U V : Type} (a : AlternativesMatch T U V) :
    Match U V :=
  a.matched

/-- Runs a whole alternation: `alternatives(start)` followed by one `add_path`
per listed branch, then `finalize()`. -/
def runAlternativesS {T U V σ : Type} (previous : T)
    (fs : List (σ → T → σ × Match U V)) (s : σ) : σ × Match U V :=
  let (s1, a) :=
    fs.foldl (fun acc f => AlternativesMatch.addPathS acc.2 f acc.1)
      (s, AlternativesMatch.new previous)
  (s1, a.finalize)

/-- Reference behaviour the specification describes for alternation: try each
branch in order on the same starting point and stop at the first success;
report failure when no branch succeeds. -/
def firstSuccessRunS {T U V σ : Type} (previous : T) :
    List (σ → T → σ × Match U V) → σ → σ × Match U V
  | [], s => (s, Match.failed)
  | f :: fs, s =>
    let (s1, r) := f s previous
    if r.isFailed then firstSuccessRunS previous fs s1 else (s1, r)

end Legio

namespace LegioOld

/-!
Embedding of the older edition (`src/match_result.rs`, `src/match_with.rs`,
`src/match_with_in_range.rs`): `Match<T>` wraps an optional `SuccessfulMatch`
record.
-/

/-- Embeds the old edition's `MatchFailed` unit error. -/
inductive MatchFailed : Type
  | matchFailed
deriving DecidableEq, Repr

/-- Embeds `SuccessfulMatch<T>` from `src/match_result.rs`. -/
structure SuccessfulMatch (T : Type) : Type where
  index : Nat
  matched : T
  rest : T
deriving DecidableEq, Repr

/-- Embeds the old edition's `Match<T>`. -/
structure Match (T : Type) : Type where
  matched : Option (SuccessfulMatch T)
deriving DecidableEq, Repr

/-- Embeds the old `Match::failed`. -/
def Match.failed {T : Type} : Match T :=
  ⟨none⟩

/-- Embeds the old `Match::is_failed`. -/
def Match.isFailed {T : Type} (m : Match T) : Bool :=
  m.matched.isNone

/-- Embeds the old `Match::take`: `(index, matched, rest)` or `MatchFailed`. -/
def Match.take {T : Type} (m : Match T) : Except MatchFailed (Nat × T × T) :=
  match m.matched with
  | some sm => .ok (sm.index, sm.matched, sm.rest)
  | none => .error .matchFailed

/-- Embeds the old `match_with` for `[E]` (`src/match_with.rs`): scans for the
first rejected element and produces `SuccessfulMatch::new(0, prefix, suffix)`;
it never fails. -/
def matchWithSt {E σ : Type} (f : σ → E → σ × Bool) (s : σ) (l : List E) :
    σ × Match (List E) :=
  let (s1, m, r) := Legio.matchWithGo f s l
  (s1, ⟨some ⟨0, m, r⟩⟩)

/-- Embeds the old `match_max_with` for `[E]` (`src/match_with_in_range.rs`,
lines 74-84): when the maximum fits, it matches the predicate against the
truncated slice `&self[..maximum]` but takes the "rest" part from
`&self[maximum..]` regardless of how much of the truncated slice matched. -/
def matchMaxWith {E σ : Type} (l : List E) (maximum : Nat)
    (f : σ → E → σ × Bool) (s : σ) : σ × Match (List E) :=
  if maximum ≤ l.length then
    let (s1, res) := matchWithSt f s (l.take maximum)
    (s1,
      match res.take with
      | .ok (_, matched, _) => ⟨some ⟨0, matched, l.drop maximum⟩⟩
      | .error _ => Match.failed)
  else matchWithSt f s l

/-- Pure-predicate instance of the old `match_max_with`. -/
def matchMaxWithP {E : Type} (l : List E) (maximum : Nat) (p : E → Bool) :
    Match (List E) :=
  (matchMaxWith l maximum (fun (u : Unit) e => (u, p e)) ()).2

/-- Embeds the old `CollectingMatch<T>` (`src/match_result.rs`): accumulated
`(index, matched)` pairs plus the most recent match result. -/
structure CollectingMatch (T : Type) : Type where
  «matches» : List (Nat × T)
  lastMatch : Match T
deriving DecidableEq, Repr

/-- Embeds the old `CollectingMatch::failed`. -/
def CollectingMatch.failed {T : Type} : CollectingMatch T :=
  ⟨[], Match.failed⟩

/-- Embeds the old `CollectingMatch::is_failed`. -/
def CollectingMatch.isFailed {T : Type} (c : CollectingMatch T) : Bool :=
  c.lastMatch.isFailed

/-- Embeds the old `CollectingMatch::single` (`src/match_result.rs`): on a live
match, pushes the previous step's `(index, matched)` pair and replaces the last
match by the closure result; on a failed one it is the identity. -/
def CollectingMatch.singleS {T σ : Type} (c : CollectingMatch T)
    (f : σ → Nat → T → T → σ × Match T) (s : σ) : σ × CollectingMatch T :=
  match c.lastMatch.matched with
  | some sm =>
    let (s1, res) := f s sm.index sm.matched sm.rest
    (s1, ⟨c.«matches» ++ [(sm.index, sm.matched)], res⟩)
  | none => (s, c)

/-- Embeds the old `CollectingMatch::repeat` (`src/match_result.rs`, lines
546-565): applies `single` with the same closure until the count runs out or
the match has failed. -/
def CollectingMatch.repeatS {T σ : Type} (c : CollectingMatch T) :
    Nat → (σ → Nat → T → T → σ × Match T) → σ → σ × CollectingMatch T
  | 0, _, s => (s, c)
  | n + 1, f, s =>
    if c.isFailed then (s, c)
    else
      let (s1, c1) := c.singleS f s
      CollectingMatch.repeatS c1 n f s1

/-- Embeds the old `CollectingMatch::finalize` (`src/match_result.rs`): pushes
the final match's `(index, matched)` pair and returns the accumulated list with
the final "rest", or the `MatchFailed` error. -/
def CollectingMatch.finalize {T : Type} (c : CollectingMatch T) :
    Except MatchFailed (List (Nat × T) × T) :=
  match c.lastMatch.matched with
  | some sm => .ok (c.«matches» ++ [(sm.index, sm.matched)], sm.rest)
  | none => .error .matchFailed

end LegioOld

namespace Legio

/-- Behaviour of the `match_with` scan loop under a stateless predicate: the
accepted prefix and the remainder partition the input, every accepted element
satisfies the predicate, and the first remaining element (if any) fails it. -/
theorem matchWithGo_pure_spec {E : Type} (p : E → Bool) (l : List E) :
    (matchWithGo (fun (u : Unit) e => (u, p e)) () l).2.1 ++
        (matchWithGo (fun (u : Unit) e => (u, p e)) () l).2.2 = l ∧
      (∀ x ∈ (matchWithGo (fun (u : Unit) e => (u, p e)) () l).2.1, p x = true) ∧
      (∀ y, (matchWithGo (fun (u : Unit) e => (u, p e)) () l).2.2.head? = some y →
        p y = false) := by
  induction l with
  | nil => simp [matchWithGo]
  | cons e t ih =>
    rcases ih with ⟨ih1, ih2, ih3⟩
    by_cases hp : p e
    · simp only [matchWithGo, hp, if_true]
      refine ⟨by simpa using ih1, ?_, ih3⟩
      intro x hx
      rcases List.mem_cons.mp hx with hx | hx
      · simpa [hx] using hp
      · exact ih2 x hx
    · simp only [matchWithGo, hp, if_false]
      refine ⟨rfl, by simp, ?_⟩
      intro y hy
      obtain rfl : e = y := by simpa using hy
      simpa using hp

/-- C5: `match_with` always returns a success; its "matched" part is the
maximal prefix on which every element satisfies the predicate and its "rest"
part is the remainder starting at the first failing element (empty when the
predicate holds everywhere). -/
theorem c5_match_with_never_fails_and_is_maximal {E : Type} (l : List E)
    (p : E → Bool) :
    (matchWithP l p).isFailed = false ∧
      ∃ m r, matchWithP l p = Match.new (some m) r ∧ m ++ r = l ∧
        (∀ x ∈ m, p x = true) ∧ (∀ y, r.head? = some y → p y = false) := by
  rcases matchWithGo_pure_spec p l with ⟨h1, h2, h3⟩
  refine ⟨rfl, (matchWithGo (fun (u : Unit) e => (u, p e)) () l).2.1,
    (matchWithGo (fun (u : Unit) e => (u, p e)) () l).2.2, rfl, h1, h2, h3⟩

/-- C1: evaluation of the older edition's `match_max_with`
(`src/match_with_in_range.rs`, lines 74-84) at `[1, 9, 3]` with maximum `2`
and predicate `x < 5`: the call succeeds with matched `[1]` and rest `[3]`,
so the element `9` is neither in the matched part nor in the rest — the
partition invariant fails on a successful result. -/
theorem c1_old_match_max_with_breaks_partition :
    LegioOld.matchMaxWithP [1, 9, 3] 2 (fun x => decide (x < 5)) =
        ⟨some ⟨0, [1], [3]⟩⟩ ∧
      (LegioOld.Match.isFailed ⟨some ⟨0, [1], [3]⟩⟩ = false) ∧
      [1] ++ [3] ≠ [1, 9, 3] := by
  refine ⟨by decide, rfl, by decide⟩

/-- C2 counterexample: `match_static("ab", "abc")` — the first
`n = min(2, 3) = 2` elements of the sequence equal the first `2` elements of
the pattern, yet the call fails (the truncated slice is compared against the
whole pattern, and slices of different lengths are never equal). -/
theorem c2_truncation_counterexample :
    (matchStatic ['a', 'b'] ['a', 'b', 'c']).isFailed = true ∧
      List.take 2 ['a', 'b', 'c'] = ['a', 'b'] := by
  decide

/-- C2 amended: for a non-empty pattern, `match_static` succeeds iff the
pattern is no longer than the sequence and the sequence starts with it;
`matched` is then the pattern-length prefix and `rest` everything after. A
pattern longer than the sequence always fails. -/
theorem c2_static_matcher_amended {E : Type} [DecidableEq E] (s p : List E)
    (hp : p ≠ []) :
    matchStatic s p =
      if p.length ≤ s.length ∧ s.take p.length = p then
        Match.new (some (s.take p.length)) (s.drop p.length)
      else Match.failed := by
  have hne : p.isEmpty = false := by simpa [List.isEmpty_iff] using hp
  by_cases hle : p.length ≤ s.length
  · have hmin : min s.length p.length = p.length := min_eq_right hle
    by_cases htake : s.take p.length = p
    · simp [matchStatic, hne, hmin, htake, hle]
    · simp [matchStatic, hne, hmin, htake]
  · have hlt : s.length < p.length := lt_of_not_le hle
    have hmin : min s.length p.length = s.length := min_eq_left (le_of_lt hlt)
    have hself : s.take s.length = s := by simp
    have hsp : s ≠ p := by
      intro h
      exact absurd (congrArg List.length h) (Nat.ne_of_lt hlt)
    have htake : s.take p.length ≠ p := by
      rw [List.take_of_length_le (le_of_lt hlt)]
      exact hsp
    simp [matchStatic, hne, hmin, hself, hsp, htake, hle]

/-- C2 amended, witness: `match_static("abc", "ab")` succeeds with matched
`"ab"` and rest `"c"`. -/
theorem c2_static_matcher_amended_witness :
    matchStatic ['a', 'b', 'c'] ['a', 'b'] = Match.new (some ['a', 'b']) ['c'] := by
  rw [c2_static_matcher_amended ['a', 'b', 'c'] ['a', 'b'] (by decide)]
  decide

/-- C3: evaluation of the trait edition's `match_min_max_with`
(`src/traits/match_with_in_range.rs`, lines 118-142) at sequence `[7, 7, 7]`,
minimum `1`, maximum `2`, predicate constantly true: the source passes
`minimum` — not `maximum` — to `match_max_with` in the `len > maximum` branch,
so the matched part is capped at `1` element instead of the claimed `2`. -/
theorem c3_min_max_with_caps_at_minimum :
    matchMinMaxWithP [7, 7, 7] 1 2 (fun _ => true) = Match.new (some [7]) [7, 7] ∧
      Match.new (some [7]) ([7, 7] : List Nat) ≠ Match.new (some [7, 7]) [7] := by
  exact ⟨by decide, by decide⟩

/-- C4: evaluation of `match_static` for `&str`
(`src/traits/match_static.rs`, lines 32-47) at input `"é"` and pattern `"x"`:
the comparison boundary `min(2, 1) = 1` splits the two-byte character `é`, and
the byte-slicing step panics instead of returning a failed match. -/
theorem c4_match_static_str_panics_off_boundary :
    matchStaticStr ['é'] ['x'] = Except.error PanicError.panicked ∧
      (∀ m : Match (List Char) (List Char),
        matchStaticStr ['é'] ['x'] ≠ Except.ok m) := by
  refine ⟨rfl, fun m h => ?_⟩
  have h2 : (Except.error PanicError.panicked :
      Except PanicError (Match (List Char) (List Char))) = Except.ok m :=
    (show matchStaticStr ['é'] ['x'] = Except.error PanicError.panicked from
      rfl).symm.trans h
  exact Except.noConfusion h2

/-- C10: repeating zero times is the identity in both editions: the trait
edition's `repeat` hands back the value untouched whenever it has not failed,
and the old edition's `repeat` does so unconditionally; the closure state comes
back unchanged, so the matching function is never invoked. -/
theorem c10_repeat_zero_is_identity :
    (∀ (T U σ : Type) (c : CollectingMatch T U)
        (f : σ → Option T → U → σ × Match T U) (s : σ),
      c.isFailed = false → c.repeatS 0 f s = (s, c)) ∧
      (∀ (T σ : Type) (c : LegioOld.CollectingMatch T)
          (f : σ → Nat → T → T → σ × LegioOld.Match T) (s : σ),
        c.repeatS 0 f s = (s, c)) := by
  constructor
  · intro T U σ c f s hc
    cases hr : c.rest with
    | none => simp [CollectingMatch.isFailed, hr] at hc
    | some r => simp [CollectingMatch.repeatS, hr]
  · intro T σ c f s
    rfl

/-- C10, witness: a concrete non-failed collecting match is returned unchanged
by `repeat(0, f)`. -/
theorem c10_repeat_zero_is_identity_witness :
    CollectingMatch.repeatS (⟨[], some 0⟩ : CollectingMatch Nat Nat) 0
      (fun (u : Unit) _ _ => (u, Match.failed)) () = ((), ⟨[], some 0⟩) :=
  c10_repeat_zero_is_identity.1 Nat Nat Unit ⟨[], some 0⟩
    (fun (u : Unit) _ _ => (u, Match.failed)) () rfl

/-- Helper for C9: any failed output of the trait edition's
`CollectingMatch::repeat` is the canonical failed value, whose accumulated list
is empty. -/
theorem repeatS_failed_is_canonical {T U σ : Type} (n : Nat) :
    ∀ (c : CollectingMatch T U) (f : σ → Option T → U → σ × Match T U) (s : σ),
      ((c.repeatS n f s).2).isFailed = true →
        (c.repeatS n f s).2 = CollectingMatch.failed := by
  induction n with
  | zero =>
    intro c f s h
    obtain ⟨ms, rs⟩ := c
    cases rs with
    | none => rfl
    | some r => exact Bool.noConfusion h
  | succ n ih =>
    intro c f s h
    obtain ⟨ms, rs⟩ := c
    cases rs with
    | none => rfl
    | some r =>
      have hrw : CollectingMatch.repeatS (⟨ms, some r⟩ : CollectingMatch T U)
          (n + 1) f s =
          CollectingMatch.repeatS ⟨ms, (f s ms.getLast? r).2.rest⟩ n f
            (f s ms.getLast? r).1 := rfl
      rw [hrw] at h ⊢
      exact ih _ f _ h

/-- C9: a failing step in a collecting chain discards the accumulated pieces
(the result is the canonical failed value, whose list is empty), `finalize` on
a failed value reports the `MatchFailed` error, and `finalize` returns the
accumulated ordered list with the final rest exactly when the chain has not
failed. -/
theorem c9_collecting_all_or_nothing :
    (∀ (T U σ : Type) (c : CollectingMatch T U)
        (f : σ → Option T → U → σ × Match T U) (s : σ) (rest : U),
      c.rest = some rest →
        ((f s c.«matches».getLast? rest).2).isFailed = true →
          (c.singleS f s).2 = CollectingMatch.failed) ∧
      (∀ (T U σ : Type) (n : Nat) (c : CollectingMatch T U)
          (f : σ → Option T → U → σ × Match T U) (s : σ),
        ((c.repeatS n f s).2).isFailed = true →
          (c.repeatS n f s).2 = CollectingMatch.failed) ∧
      (∀ (T U : Type),
        (CollectingMatch.failed : CollectingMatch T U).finalize =
          Except.error MatchFailed.matchFailed) ∧
      (∀ (T U : Type) (c : CollectingMatch T U) (rest : U),
        c.rest = some rest → c.finalize = Except.ok (c.«matches», rest)) := by
  refine ⟨?_, ?_, ?_, ?_⟩
  · intro T U σ c f s rest hrest hfail
    rcases hf : f s c.«matches».getLast? rest with ⟨s1, res⟩
    rw [hf] at hfail
    simp only at hfail
    simp [CollectingMatch.singleS, hrest, hf, hfail]
  · intro T U σ n c f s h
    exact repeatS_failed_is_canonical n c f s h
  · intro T U
    rfl
  · intro T U c rest hrest
    simp [CollectingMatch.finalize, hrest]

/-- C9, witness: finalizing a concrete live collecting match returns its
accumulated list and rest; a concrete failing step yields the failed value. -/
theorem c9_collecting_all_or_nothing_witness :
    (CollectingMatch.singleS (⟨[[1]], some [2]⟩ : CollectingMatch (List Nat) (List Nat))
        (fun (u : Unit) _ _ => (u, Match.failed)) ()).2 = CollectingMatch.failed ∧
      CollectingMatch.finalize
          (⟨[[1]], some [2]⟩ : CollectingMatch (List Nat) (List Nat)) =
        Except.ok ([[1]], [2]) :=
  ⟨c9_collecting_all_or_nothing.1 (List Nat) (List Nat) Unit ⟨[[1]], some [2]⟩
      (fun (u : Unit) _ _ => (u, Match.failed)) () [2] rfl rfl,
    c9_collecting_all_or_nothing.2.2.2 (List Nat) (List Nat) ⟨[[1]], some [2]⟩ [2] rfl⟩

/-- C8: evaluation showing the trait edition's `CollectingMatch::repeat`
(`src/result.rs`, lines 847-868) is not `single` iterated: starting from an
empty accumulation with rest `[0]` and one application of a closure that
matches the whole rest, `repeat(1, f)` leaves the accumulated list empty while
`single(f)` appends the matched piece `[0]`. -/
theorem c8_repeat_is_not_iterated_single :
    CollectingMatch.repeatS
        (⟨[], some [0]⟩ : CollectingMatch (List Nat) (List Nat)) 1
        (fun (u : Unit) _ r => (u, Match.new (some r) [])) () =
        ((), ⟨[], some []⟩) ∧
      CollectingMatch.singleS
        (⟨[], some [0]⟩ : CollectingMatch (List Nat) (List Nat))
        (fun (u : Unit) _ r => (u, Match.new (some r) [])) () =
        ((), ⟨[[0]], some []⟩) ∧
      (⟨[], some []⟩ : CollectingMatch (List Nat) (List Nat)) ≠
        ⟨[[0]], some []⟩ := by
  refine ⟨rfl, rfl, by decide⟩

/-- C7: failure absorption. The first two conjuncts state the one designed
exception precisely: `optional`/`optional_ref` revert a failed local
sub-attempt on a live match back to the pre-attempt value. Every further
conjunct applies one chainable operation to the canonical failed value
(`Match`, `MappedMatch` or `CollectingMatch`) and shows the result is failed
again with the closure state unchanged for every closure — so the
caller-supplied function is never invoked and no side effect can occur. -/
theorem c7_failure_absorption :
    (∀ (T U σ : Type) (m : Match T U) (f : σ → Option T → U → σ × Match T U)
        (s : σ) (rest : U), m.rest = some rest →
      ((f s m.matched rest).2).isFailed = true →
        (m.optionalS f s).2 = m) ∧
    (∀ (T U σ : Type) (m : Match T U) (f : σ → Option T → U → σ × Match T U)
        (s : σ) (rest : U), m.rest = some rest →
      ((f s m.matched rest).2).isFailed = true →
        (m.optionalRefS f s).2 = m) ∧
    (∀ (T U σ : Type) (f : σ → Option T → U → σ × Bool) (s : σ),
      Match.assertS (Match.failed : Match T U) f s = (s, Match.failed)) ∧
    (∀ (T U σ : Type) (f : σ → Option T → U → σ) (s : σ),
      Match.executeS (Match.failed : Match T U) f s = (s, Match.failed)) ∧
    (∀ (T U σ : Type) (f : σ → Option T → U → σ × Match T U) (s : σ),
      Match.discardingS (Match.failed : Match T U) f s = (s, Match.failed)) ∧
    (∀ (T U σ : Type) (f : σ → Option T → U → σ × Match T U) (s : σ),
      Match.discardingRefS (Match.failed : Match T U) f s = (s, Match.failed)) ∧
    (∀ (T U M R σ : Type) (f : σ → Option T → U → σ × TransformMatch M R) (s : σ),
      Match.transformS (Match.failed : Match T U) f s = (s, Match.failed)) ∧
    (∀ (T U R σ : Type) (f : σ → T → σ × R) (s : σ),
      Match.transformMatchedS (Match.failed : Match T U) f s = (s, Match.failed)) ∧
    (∀ (T U R σ : Type) (f : σ → U → σ × R) (s : σ),
      Match.transformRestS (Match.failed : Match T U) f s = (s, Match.failed)) ∧
    (∀ (T U V : Type) (v : V),
      Match.map (Match.failed : Match T U) v = MappedMatch.failed) ∧
    (∀ (T U : Type), (Match.failed : Match T U).clear = Match.failed) ∧
    (∀ (T E : Type) [DecidableEq E] (p : List E),
      Match.matchStaticChained (Match.failed : Match T (List E)) p = Match.failed) ∧
    (∀ (T E σ : Type) (f : σ → E → σ × Bool) (s : σ),
      Match.matchWithChainedS (Match.failed : Match T (List E)) f s =
        (s, Match.failed)) ∧
    (∀ (T E σ : Type) (n : Nat) (f : σ → E → σ × Bool) (s : σ),
      Match.matchMinWithChainedS (Match.failed : Match T (List E)) n f s =
        (s, Match.failed)) ∧
    (∀ (T E σ : Type) (n : Nat) (f : σ → E → σ × Bool) (s : σ),
      Match.matchMaxWithChainedS (Match.failed : Match T (List E)) n f s =
        (s, Match.failed)) ∧
    (∀ (T E σ : Type) (lo hi : Nat) (f : σ → E → σ × Bool) (s : σ),
      Match.matchMinMaxWithChainedS (Match.failed : Match T (List E)) lo hi f s =
        (s, Match.failed)) ∧
    (∀ (T E σ : Type) (n : Nat) (f : σ → E → σ × Bool) (s : σ),
      Match.matchExactWithChainedS (Match.failed : Match T (List E)) n f s =
        (s, Match.failed)) ∧
    (∀ (T U σ : Type) (f : σ → Option T → U → σ × Match T U) (s : σ),
      Match.optionalS (Match.failed : Match T U) f s = (s, Match.failed)) ∧
    (∀ (T U σ : Type) (f : σ → Option T → U → σ × Match T U) (s : σ),
      Match.optionalRefS (Match.failed : Match T U) f s = (s, Match.failed)) ∧
    (∀ (T U V σ : Type) (f : σ → Option (T × V) → U → σ × Bool) (s : σ),
      MappedMatch.assertS (MappedMatch.failed : MappedMatch T U V) f s =
        (s, MappedMatch.failed)) ∧
    (∀ (T U V σ : Type) (f : σ → Option (T × V) → U → σ) (s : σ),
      MappedMatch.executeS (MappedMatch.failed : MappedMatch T U V) f s =
        (s, MappedMatch.failed)) ∧
    (∀ (T U V σ : Type) (f : σ → Option (T × V) → U → σ × MappedMatch T U V) (s : σ),
      MappedMatch.discardingS (MappedMatch.failed : MappedMatch T U V) f s =
        (s, MappedMatch.failed)) ∧
    (∀ (T U V σ : Type) (f : σ → Option (T × V) → U → σ × MappedMatch T U V) (s : σ),
      MappedMatch.discardingRefS (MappedMatch.failed : MappedMatch T U V) f s =
        (s, MappedMatch.failed)) ∧
    (∀ (T U V M R Q σ : Type)
        (f : σ → Option (T × V) → U → σ × TransformMappedMatch M R Q) (s : σ),
      MappedMatch.transformS (MappedMatch.failed : MappedMatch T U V) f s =
        (s, MappedMatch.failed)) ∧
    (∀ (T U V R σ : Type) (f : σ → T → σ × R) (s : σ),
      MappedMatch.transformMatchedS (MappedMatch.failed : MappedMatch T U V) f s =
        (s, MappedMatch.failed)) ∧
    (∀ (T U V R σ : Type) (f : σ → U → σ × R) (s : σ),
      MappedMatch.transformRestS (MappedMatch.failed : MappedMatch T U V) f s =
        (s, MappedMatch.failed)) ∧
    (∀ (T U V : Type),
      (MappedMatch.failed : MappedMatch T U V).clear = MappedMatch.failed) ∧
    (∀ (T U V σ : Type) (f : σ → Option (T × V) → U → σ × MappedMatch T U V) (s : σ),
      MappedMatch.optionalS (MappedMatch.failed : MappedMatch T U V) f s =
        (s, MappedMatch.failed)) ∧
    (∀ (T U V σ : Type) (f : σ → Option (T × V) → U → σ × MappedMatch T U V) (s : σ),
      MappedMatch.optionalRefS (MappedMatch.failed : MappedMatch T U V) f s =
        (s, MappedMatch.failed)) ∧
    (∀ (T U σ : Type) (f : σ → Option T → U → σ × Bool) (s : σ),
      CollectingMatch.assertS (CollectingMatch.failed : CollectingMatch T U) f s =
        (s, CollectingMatch.failed)) ∧
    (∀ (T U σ : Type) (f : σ → Option T → U → σ) (s : σ),
      CollectingMatch.executeS (CollectingMatch.failed : CollectingMatch T U) f s =
        (s, CollectingMatch.failed)) ∧
    (∀ (T U σ : Type) (f : σ → Option T → U → σ × Match T U) (s : σ),
      CollectingMatch.discardingS (CollectingMatch.failed : CollectingMatch T U) f s =
        (s, CollectingMatch.failed)) ∧
    (∀ (T U σ : Type) (f : σ → Option T → U → σ × CollectingMatch T U) (s : σ),
      CollectingMatch.optionalS (CollectingMatch.failed : CollectingMatch T U) f s =
        (s, CollectingMatch.failed)) ∧
    (∀ (T U σ : Type) (f : σ → Option T → U → σ × CollectingMatch T U) (s : σ),
      CollectingMatch.optionalRefS (CollectingMatch.failed : CollectingMatch T U) f s =
        (s, CollectingMatch.failed)) ∧
    (∀ (T U σ : Type) (f : σ → Option T → U → σ × Match T U) (s : σ),
      CollectingMatch.singleS (CollectingMatch.failed : CollectingMatch T U) f s =
        (s, CollectingMatch.failed)) ∧
    (∀ (T U σ : Type) (n : Nat) (f : σ → Option T → U → σ × Match T U) (s : σ),
      CollectingMatch.repeatS (CollectingMatch.failed : CollectingMatch T U) n f s =
        (s, CollectingMatch.failed)) := by
  refine ⟨?_, ?_, ?_, ?_, ?_, ?_, ?_, ?_, ?_, ?_, ?_, ?_, ?_, ?_, ?_, ?_, ?_,
    ?_, ?_, ?_, ?_, ?_, ?_, ?_, ?_, ?_, ?_, ?_, ?_, ?_, ?_, ?_, ?_, ?_, ?_, ?_⟩
  · intro T U σ m f s rest hrest hfail
    obtain ⟨mm, mr⟩ := m
    cases mr with
    | none => exact Option.noConfusion hrest
    | some r =>
      have hr2 : r = rest := by injection hrest
      rw [← hr2] at hfail
      have hrw : (Match.optionalS (⟨mm, some r⟩ : Match T U) f s).2 =
          if ((f s mm r).2).isFailed then (⟨mm, some r⟩ : Match T U)
          else (f s mm r).2 := rfl
      rw [hrw, hfail]
      simp
  · intro T U σ m f s rest hrest hfail
    obtain ⟨mm, mr⟩ := m
    cases mr with
    | none => exact Option.noConfusion hrest
    | some r =>
      have hr2 : r = rest := by injection hrest
      rw [← hr2] at hfail
      have hrw : (Match.optionalRefS (⟨mm, some r⟩ : Match T U) f s).2 =
          if ((f s mm r).2).isFailed then (⟨mm, some r⟩ : Match T U)
          else (f s mm r).2 := rfl
      rw [hrw, hfail]
      simp
  · intro T U σ f s; rfl
  · intro T U σ f s; rfl
  · intro T U σ f s; rfl
  · intro T U σ f s; rfl
  · intro T U M R σ f s; rfl
  · intro T U R σ f s; rfl
  · intro T U R σ f s; rfl
  · intro T U V v; rfl
  · intro T U; rfl
  · intro T E inst p; rfl
  · intro T E σ f s; rfl
  · intro T E σ n f s; rfl
  · intro T E σ n f s; rfl
  · intro T E σ lo hi f s; rfl
  · intro T E σ n f s; rfl
  · intro T U σ f s; rfl
  · intro T U σ f s; rfl
  · intro T U V σ f s; rfl
  · intro T U V σ f s; rfl
  · intro T U V σ f s; rfl
  · intro T U V σ f s; rfl
  · intro T U V M R Q σ f s; rfl
  · intro T U V R σ f s; rfl
  · intro T U V R σ f s; rfl
  · intro T U V; rfl
  · intro T U V σ f s; rfl
  · intro T U V σ f s; rfl
  · intro T U σ f s; rfl
  · intro T U σ f s; rfl
  · intro T U σ f s; rfl
  · intro T U σ f s; rfl
  · intro T U σ f s; rfl
  · intro T U σ f s; rfl
  · intro T U σ n f s
    cases n <;> rfl

/-- C7, witness: a concrete live match survives a failing `optional`
sub-attempt unchanged. -/
theorem c7_failure_absorption_witness :
    ((Match.new (some [1]) [2]).optionalS
        (fun (u : Unit) _ _ => (u, (Match.failed : Match (List Nat) (List Nat))))
        ()).2 = Match.new (some [1]) [2] :=
  c7_failure_absorption.1 (List Nat) (List Nat) Unit (Match.new (some [1]) [2])
    (fun (u : Unit) _ _ => (u, Match.failed)) () [2] rfl rfl

/-- Helper for C6: once the alternatives tree holds a success, folding any
further branches over `add_path` changes nothing — in particular no further
branch closure runs (the state is untouched). -/
theorem altFoldl_of_matched {T U V σ : Type}
    (fs : List (σ → T → σ × Match U V)) :
    ∀ (s : σ) (a : AlternativesMatch T U V), a.matched.isFailed = false →
      fs.foldl (fun acc f => AlternativesMatch.addPathS acc.2 f acc.1) (s, a) =
        (s, a) := by
  induction fs with
  | nil => intro s a _; rfl
  | cons f fs ih =>
    intro s a ha
    rw [List.foldl_cons]
    have hstep : AlternativesMatch.addPathS a f s = (s, a) := by
      simp [AlternativesMatch.addPathS, ha]
    dsimp only
    rw [hstep]
    exact ih s a ha

/-- Helper for C6: folding `add_path` from a failed tree agrees with running
the branches in order until the first success — same final closure state, same
failure status, and the identical result whenever some branch succeeds. -/
theorem altFoldl_spec {T U V σ : Type} (fs : List (σ → T → σ × Match U V)) :
    ∀ (s : σ) (prev : T) (m : Match U V), m.isFailed = true →
      ((fs.foldl (fun acc f => AlternativesMatch.addPathS acc.2 f acc.1)
            (s, ⟨prev, m⟩)).1 = (firstSuccessRunS prev fs s).1 ∧
        ((fs.foldl (fun acc f => AlternativesMatch.addPathS acc.2 f acc.1)
            (s, ⟨prev, m⟩)).2.matched.isFailed =
          (firstSuccessRunS prev fs s).2.isFailed) ∧
        ((firstSuccessRunS prev fs s).2.isFailed = false →
          (fs.foldl (fun acc f => AlternativesMatch.addPathS acc.2 f acc.1)
            (s, ⟨prev, m⟩)).2.matched = (firstSuccessRunS prev fs s).2)) := by
  induction fs with
  | nil =>
    intro s prev m hm
    refine ⟨rfl, ?_, ?_⟩
    · simpa [firstSuccessRunS, Match.isFailed, Match.failed] using hm
    · intro h
      simp [firstSuccessRunS, Match.isFailed, Match.failed] at h
  | cons f fs ih =>
    intro s prev m hm
    rcases hf : f s prev with ⟨s1, r⟩
    have hstep : AlternativesMatch.addPathS (⟨prev, m⟩ : AlternativesMatch T U V) f s =
        (s1, ⟨prev, r⟩) := by
      simp [AlternativesMatch.addPathS, hm, hf]
    have hfold : (f :: fs).foldl
        (fun acc g => AlternativesMatch.addPathS acc.2 g acc.1) (s, ⟨prev, m⟩) =
        fs.foldl (fun acc g => AlternativesMatch.addPathS acc.2 g acc.1)
          (s1, ⟨prev, r⟩) := by
      rw [List.foldl_cons]
      dsimp only
      rw [hstep]
    have hrun : firstSuccessRunS prev (f :: fs) s =
        if r.isFailed then firstSuccessRunS prev fs s1 else (s1, r) := by
      simp [firstSuccessRunS, hf]
    cases hr : r.isFailed with
    | true =>
      rcases ih s1 prev r hr with ⟨ih1, ih2, ih3⟩
      rw [hfold, hrun, if_pos hr]
      exact ⟨ih1, ih2, ih3⟩
    | false =>
      rw [hfold, hrun, if_neg (by simp [hr]),
        altFoldl_of_matched fs s1 ⟨prev, r⟩ hr]
      exact ⟨rfl, rfl, fun _ => rfl⟩

/-- C6: alternation short-circuits and keeps the first success. Conjunct one:
once an earlier branch has succeeded, `add_path` returns the tree and the
closure state unchanged — the later branch closure is never invoked. Conjunct
two: a full `alternatives … add_path* … finalize` run threads the closure
state exactly as running the branches in order up to the first success, fails
iff every branch fails (also when no branch was added), and when some branch
succeeds it returns that branch's match result unchanged. -/
theorem c6_alternation_short_circuits_to_first_success :
    (∀ (T U V σ : Type) (a : AlternativesMatch T U V)
        (f : σ → T → σ × Match U V) (s : σ),
      a.matched.isFailed = false → a.addPathS f s = (s, a)) ∧
      (∀ (T U V σ : Type) (prev : T) (fs : List (σ → T → σ × Match U V)) (s : σ),
        (runAlternativesS prev fs s).1 = (firstSuccessRunS prev fs s).1 ∧
          ((runAlternativesS prev fs s).2.isFailed =
            (firstSuccessRunS prev fs s).2.isFailed) ∧
          ((firstSuccessRunS prev fs s).2.isFailed = false →
            runAlternativesS prev fs s = firstSuccessRunS prev fs s)) := by
  constructor
  · intro T U V σ a f s ha
    simp [AlternativesMatch.addPathS, ha]
  · intro T U V σ prev fs s
    have hnew : (AlternativesMatch.new prev : AlternativesMatch T U V) =
        ⟨prev, Match.failed⟩ := rfl
    rcases altFoldl_spec fs s prev Match.failed rfl with ⟨h1, h2, h3⟩
    have hruneq : runAlternativesS prev fs s =
        ((fs.foldl (fun acc g => AlternativesMatch.addPathS acc.2 g acc.1)
            (s, ⟨prev, Match.failed⟩)).1,
          (fs.foldl (fun acc g => AlternativesMatch.addPathS acc.2 g acc.1)
            (s, ⟨prev, Match.failed⟩)).2.matched) := rfl
    refine ⟨by rw [hruneq]; exact h1, by rw [hruneq]; exact h2, ?_⟩
    intro hsucc
    rw [hruneq, h3 hsucc]
    exact Prod.ext h1 rfl

/-- C6, witness: a tree already holding a success ignores a further branch. -/
theorem c6_alternation_witness :
    AlternativesMatch.addPathS
        (⟨0, Match.new (some [1]) [2]⟩ : AlternativesMatch Nat (List Nat) (List Nat))
        (fun (u : Unit) _ => (u, Match.failed)) () =
      ((), ⟨0, Match.new (some [1]) [2]⟩) :=
  c6_alternation_short_circuits_to_first_success.1 Nat (List Nat) (List Nat) Unit
    ⟨0, Match.new (some [1]) [2]⟩ (fun (u : Unit) _ => (u, Match.failed)) () rfl

end Legio
